import Mathlib

/-!
Verification of the order-execution engine core: the multi-venue quote
router (DexRouterService), the order state machine driven by
OrderWorker.processOrder together with OrderRepository, the job queue
wrapper (OrderQueueService), and the WebSocket broadcast hub
(WebSocketManager).  Machine integers of the source are modelled as Nat,
JavaScript numbers as rationals, fallible calls as Except/Option, and the
stateful services as explicit state-passing functions.
-/

namespace OrderExec

/-! ## Data model (prisma schema enums and rows) -/

/-- Prisma enum OrderStatus. -/
inductive OrderStatus
  | PENDING
  | ROUTING
  | BUILDING
  | SUBMITTED
  | CONFIRMED
  | FAILED
deriving DecidableEq, Repr

/-- Prisma enum DexType: the two registered venues. -/
inductive DexType
  | RAYDIUM
  | METEORA
deriving DecidableEq, Repr

/-- DexQuote (services/dex/types.ts): a venue quote.  JavaScript numbers
are modelled as rationals; the optional route string is elided (never read
by the router). -/
structure DexQuote where
  dex : DexType
  price : ℚ
  fee : ℚ
  estimatedOutput : ℚ
  latencyMs : ℚ
deriving DecidableEq, Repr

/-- One DexQuoteLog row as built by DexRouterService.persistQuoteLogs. -/
structure DexQuoteLogRow where
  orderId : String
  dex : DexType
  price : ℚ
  fee : ℚ
  estimatedOutput : ℚ
  latencyMs : ℚ
  selectedForExecution : Bool
deriving DecidableEq, Repr

/-! ## DexRouterService -/

/-- Error taxonomy of the router.  The source throws
`new Error('No valid quotes available from any DEX')` for the
all-venues-failed case; the spec names this error NoQuotesAvailable. -/
inductive RouterError
  | noQuotesAvailable
deriving DecidableEq, Repr

/-- Embeds DexRouterService.getAllQuotes.  Each provider call either
resolves to a quote or throws; the per-promise `.catch` maps a throw to
`null`, so one adapter outcome is `none` exactly when that adapter failed.
`Promise.all` collects the outcomes and nulls are filtered out
(`quotes.filter((q) => q !== null)`).  No code path in the function
throws, so the only exit is `Except.ok`. -/
def getAllQuotes (outcomes : List (Option DexQuote)) :
    Except RouterError (List DexQuote) :=
  Except.ok (outcomes.filterMap id)

/-- One step of the stable descending sort performed by
`[...quotes].sort((a, b) => b.estimatedOutput - a.estimatedOutput)`:
JavaScript Array.prototype.sort is stable, so `a` is placed before `b`
exactly when `b.estimatedOutput ≤ a.estimatedOutput` (ties keep the
original adapter order). -/
def insertQuoteDesc (a : DexQuote) : List DexQuote → List DexQuote
  | [] => [a]
  | b :: l =>
    if b.estimatedOutput ≤ a.estimatedOutput then a :: b :: l
    else b :: insertQuoteDesc a l

/-- The stable descending sort of findBestRoute, as insertion sort. -/
def sortQuotesDesc : List DexQuote → List DexQuote
  | [] => []
  | a :: l => insertQuoteDesc a (sortQuotesDesc l)

/-- Embeds DexRouterService.persistQuoteLogs: builds one row per quote
with `selectedForExecution := quote.dex === selectedDex` and writes them
with `dexQuoteRepository.createMany`.  The write may fail
(`persistFails`); the failure is caught and logged and nothing is thrown,
so on failure no rows are written and no error propagates. -/
def persistQuoteLogs (orderId : String) (quotes : List DexQuote)
    (selectedDex : DexType) (persistFails : Bool) : List DexQuoteLogRow :=
  if persistFails then []
  else quotes.map fun q =>
    { orderId := orderId
      dex := q.dex
      price := q.price
      fee := q.fee
      estimatedOutput := q.estimatedOutput
      latencyMs := q.latencyMs
      selectedForExecution := q.dex == selectedDex }

/-- RoutingResult of DexRouterService.findBestRoute.  The human-readable
`reason` string (float formatting of the percentage improvement) is
elided; it is never read by the worker. -/
structure RoutingResult where
  selectedDex : DexType
  selectedQuote : DexQuote
  allQuotes : List DexQuote
deriving DecidableEq, Repr

/-- Embeds DexRouterService.findBestRoute: calls getAllQuotes, throws
NoQuotesAvailable when the list is empty, otherwise sorts the quotes by
estimated output descending (stable) and selects the head; when an order
id is supplied it calls persistQuoteLogs as a non-blocking side effect.
Returns the routing outcome together with the DexQuoteLog rows written. -/
def findBestRoute (outcomes : List (Option DexQuote))
    (orderId : Option String) (persistFails : Bool) :
    Except RouterError RoutingResult × List DexQuoteLogRow :=
  match getAllQuotes outcomes with
  | Except.error e => (Except.error e, [])
  | Except.ok [] => (Except.error RouterError.noQuotesAvailable, [])
  | Except.ok (q :: qs) =>
    let sorted := sortQuotesDesc (q :: qs)
    let best := sorted.headD q
    let logs :=
      match orderId with
      | Option.none => []
      | Option.some oid => persistQuoteLogs oid (q :: qs) best.dex persistFails
    (Except.ok { selectedDex := best.dex, selectedQuote := best, allQuotes := sorted },
     logs)

/-- Spec-side selection for the refinement statement of the routing
claim: the first quote in original adapter order whose estimatedOutput is
maximal (maximal output, ties broken by adapter order). -/
def firstMaxQuote : List DexQuote → Option DexQuote
  | [] => Option.none
  | a :: l =>
    match firstMaxQuote l with
    | Option.none => Option.some a
    | Option.some b =>
      if b.estimatedOutput ≤ a.estimatedOutput then Option.some a else Option.some b

/-! ## Order repository and worker state machine -/

/-- The persisted rows owned by one order: the Order row fields mutated by
the core, the append-only OrderStatusHistory statuses in creation order,
and the number of OrderExecution rows for the order. -/
structure DbState where
  status : OrderStatus
  retryCount : Nat
  failureReason : Option String
  history : List OrderStatus
  executions : Nat
deriving DecidableEq, Repr

/-- OrderRepository.create: a fresh order row with status PENDING and
retryCount 0.  No OrderStatusHistory row is written at creation. -/
def createdOrder : DbState :=
  { status := OrderStatus.PENDING
    retryCount := 0
    failureReason := Option.none
    history := []
    executions := 0 }

/-- OrderRepository.updateStatus, successful case: inside one
prisma.$transaction the order row status/updatedAt is updated and one
OrderStatusHistory row with the same status is appended. -/
def updateStatus (db : DbState) (s : OrderStatus) : DbState :=
  { db with status := s, history := db.history ++ [s] }

/-- OrderRepository.markAsFailed, successful case: a single order-row
update setting status FAILED and failureReason.  No OrderStatusHistory
row is appended and no transaction is opened. -/
def markAsFailed (db : DbState) (reason : String) : DbState :=
  { db with status := OrderStatus.FAILED, failureReason := Option.some reason }

/-- OrderRepository.incrementRetryCount. -/
def incrementRetryCount (db : DbState) : DbState :=
  { db with retryCount := db.retryCount + 1 }

/-- Persistence failure of the state store. -/
inductive PersistError
  | persistenceFailure
deriving DecidableEq, Repr

/-- OrderRepository.updateStatus with the store possibly unavailable: the
prisma.$transaction is all-or-nothing, so on failure the call throws and
neither the order-row update nor the history append happens. -/
def updateStatusTx (dbFails : Bool) (db : DbState) (s : OrderStatus) :
    Except PersistError DbState :=
  if dbFails then Except.error PersistError.persistenceFailure
  else Except.ok (updateStatus db s)

/-- OrderRepository.markAsFailed with the store possibly unavailable. -/
def markAsFailedTx (dbFails : Bool) (db : DbState) (reason : String) :
    Except PersistError DbState :=
  if dbFails then Except.error PersistError.persistenceFailure
  else Except.ok (markAsFailed db reason)

/-- Result of one OrderWorker.processOrder invocation: the database state
it leaves behind, the `success` flag of the returned OrderJobResult, and
the list of order-update broadcasts the invocation emitted. -/
structure WorkerResult where
  db : DbState
  success : Bool
  broadcasts : List OrderStatus
deriving DecidableEq, Repr

/-- Embeds OrderWorker.processOrder.  The awaited steps of the try block
are, in order: (1) updateStatus ROUTING, (2) dexRouter.findBestRoute,
(3) updateStatus BUILDING, (4) updateStatus SUBMITTED,
(5) dexRouter.executeSwap, (6) updateStatus CONFIRMED.  `k` is the number
of steps that complete before the first throw (`k = 6`: no step throws);
a throwing updateStatus has no effect (the transaction is all-or-nothing)
and a throwing routing/execution call touches no order row.  On a throw
the catch block increments retryCount and, when
`job.attemptsMade + 1 >= (job.opts.attempts || 1)`, calls markAsFailed
with the captured error text; it then returns a failure result instead of
rethrowing.  The worker never calls the broadcast hub (neither wsManager
nor WebSocketService appears in the file), and it never creates an
OrderExecution row (ExecutionRepository has no call site), so
`broadcasts` is empty and `executions` is untouched.  `runStage` gives
the persisted effect of the completed try-block steps; `processOrder`
adds the catch block. -/
def runStage (k : Nat) (db : DbState) : DbState :=
  let db1 := if 1 ≤ k then updateStatus db OrderStatus.ROUTING else db
  let db3 := if 3 ≤ k then updateStatus db1 OrderStatus.BUILDING else db1
  let db4 := if 4 ≤ k then updateStatus db3 OrderStatus.SUBMITTED else db3
  if 6 ≤ k then updateStatus db4 OrderStatus.CONFIRMED else db4

/-- The catch-block logic of OrderWorker.processOrder around
`runStage`. -/
def processOrder (k attemptsMade attempts : Nat) (errText : String)
    (db : DbState) : WorkerResult :=
  let dbs := runStage k db
  if 6 ≤ k then { db := dbs, success := true, broadcasts := [] }
  else
    let dbr := incrementRetryCount dbs
    { db :=
        if attemptsMade + 1 ≥ (if attempts = 0 then 1 else attempts) then
          markAsFailed dbr errText
        else dbr
      success := false
      broadcasts := [] }

/-- The OrderStatusHistory rows appended by one processOrder invocation
that completes `k` steps. -/
def attemptDelta (k : Nat) : List OrderStatus :=
  if 6 ≤ k then
    [OrderStatus.ROUTING, OrderStatus.BUILDING, OrderStatus.SUBMITTED,
     OrderStatus.CONFIRMED]
  else if 4 ≤ k then
    [OrderStatus.ROUTING, OrderStatus.BUILDING, OrderStatus.SUBMITTED]
  else if 3 ≤ k then [OrderStatus.ROUTING, OrderStatus.BUILDING]
  else if 1 ≤ k then [OrderStatus.ROUTING]
  else []

/-- The order status left behind by a failed, non-final attempt: the
status persisted by the last completed updateStatus, or the previous
status when the very first step threw. -/
def stageReached (k : Nat) (db : DbState) : OrderStatus :=
  if 4 ≤ k then OrderStatus.SUBMITTED
  else if 3 ≤ k then OrderStatus.BUILDING
  else if 1 ≤ k then OrderStatus.ROUTING
  else db.status

/-- The operations of the core that touch one order's persisted rows. -/
inductive Ev
  /-- One invocation of OrderWorker.processOrder on this order's job. -/
  | attempt (k attemptsMade attempts : Nat) (errText : String)
  /-- OrderService.cancelOrder: only orders with status PENDING can be
  cancelled, and markAsFailed runs only when the queued job was actually
  removed. -/
  | cancel (removed : Bool)
  /-- OrderService.retryOrder: only orders with status FAILED can be
  retried; the order is reset via
  updateStatus(PENDING, 'Order retried manually') and the re-enqueue then
  creates a fresh order, so this order receives no further rows from it. -/
  | retryManual
deriving DecidableEq, Repr

/-- Effect of one operation on one order's persisted rows. -/
def step (db : DbState) (e : Ev) : DbState :=
  match e with
  | Ev.attempt k am att err => (processOrder k am att err db).db
  | Ev.cancel removed =>
    if db.status == OrderStatus.PENDING && removed then
      markAsFailed db "Order cancelled by user"
    else db
  | Ev.retryManual =>
    if db.status == OrderStatus.FAILED then updateStatus db OrderStatus.PENDING
    else db

/-- The persisted rows of one order after a sequence of operations,
starting from its creation. -/
def run (evs : List Ev) : DbState :=
  evs.foldl step createdOrder

/-- Edge relation of the state graph claimed for OrderStatusHistory:
PENDING → ROUTING → BUILDING → SUBMITTED → CONFIRMED, FAILED reachable
from any non-terminal state, plus the allowed manual FAILED → PENDING
restart. -/
def claimEdge : OrderStatus → OrderStatus → Bool
  | OrderStatus.PENDING, OrderStatus.ROUTING => true
  | OrderStatus.ROUTING, OrderStatus.BUILDING => true
  | OrderStatus.BUILDING, OrderStatus.SUBMITTED => true
  | OrderStatus.SUBMITTED, OrderStatus.CONFIRMED => true
  | OrderStatus.PENDING, OrderStatus.FAILED => true
  | OrderStatus.ROUTING, OrderStatus.FAILED => true
  | OrderStatus.BUILDING, OrderStatus.FAILED => true
  | OrderStatus.SUBMITTED, OrderStatus.FAILED => true
  | OrderStatus.FAILED, OrderStatus.PENDING => true
  | _, _ => false

/-- A status sequence is a valid path of the claimed state graph when
every adjacent pair is an edge. -/
def validClaimPath : List OrderStatus → Bool
  | [] => true
  | [_] => true
  | a :: b :: t => claimEdge a b && validClaimPath (b :: t)

/-- The history blocks one worker attempt can append: a nonempty forward
prefix of ROUTING, BUILDING, SUBMITTED, CONFIRMED. -/
def attemptBlock (b : List OrderStatus) : Bool :=
  b == [OrderStatus.ROUTING] ||
  b == [OrderStatus.ROUTING, OrderStatus.BUILDING] ||
  b == [OrderStatus.ROUTING, OrderStatus.BUILDING, OrderStatus.SUBMITTED] ||
  b == [OrderStatus.ROUTING, OrderStatus.BUILDING, OrderStatus.SUBMITTED,
        OrderStatus.CONFIRMED]

/-- Decomposition of an OrderStatusHistory sequence into the blocks the
code can actually append: worker-attempt blocks and single PENDING rows
written by the manual restart. -/
inductive HistoryChunks : List OrderStatus → Prop
  | nil : HistoryChunks []
  | attempt (b t : List OrderStatus) : attemptBlock b = true →
      HistoryChunks t → HistoryChunks (b ++ t)
  | restart (t : List OrderStatus) : HistoryChunks t →
      HistoryChunks (OrderStatus.PENDING :: t)

/-! ## Job queue (OrderQueueService) -/

/-- One job of the order-processing queue. -/
structure QueueJob where
  jobId : String
  orderId : String
deriving DecidableEq, Repr

/-- Modelled from the spec: the queue library (BullMQ) is not part of the
source tree.  The contract OrderQueueService.addOrder relies on is that
`Queue.add` with an explicit custom jobId is idempotent while a job with
that id exists — re-adding the same jobId does not create a second job. -/
def queueAdd (jobs : List QueueJob) (jid oid : String) : List QueueJob :=
  if jobs.any (fun j => j.jobId == jid) then jobs
  else jobs ++ [{ jobId := jid, orderId := oid }]

/-- Embeds the enqueue step of OrderQueueService.addOrder: the job id is
derived deterministically from the order id as `order-` ++ orderId. -/
def enqueueOrder (jobs : List QueueJob) (orderId : String) : List QueueJob :=
  queueAdd jobs ("order-" ++ orderId) orderId

/-- The in-flight jobs of one order id. -/
def jobsOf (jobs : List QueueJob) (orderId : String) : List QueueJob :=
  jobs.filter (fun j => j.jobId == "order-" ++ orderId)

/-! ## WebSocket hub (WebSocketManager) -/

/-- One registered connection: the id, whether its socket readyState is
OPEN, and whether socket.send currently throws.  The source keeps the
socket in `connections` and the bookkeeping in `connectionInfo`; the two
maps are always inserted into and removed from together, so one registry
models both. -/
structure Conn where
  id : String
  readyStateOpen : Bool
  sendFails : Bool
deriving DecidableEq, Repr

/-- WebSocketMessageType of the wire contract
(services/websocket/types.ts). -/
inductive WsType
  | subscribe
  | unsubscribe
  | ping
  | orderUpdate
  | error
  | pong
  | connected
  | subscribed
deriving DecidableEq, Repr

/-- Payload shapes of server-to-client messages. -/
inductive WsPayload
  | connectedInfo (connectionId : String)
  | orderUpdateInfo (orderId : String) (status : OrderStatus)
      (message : Option String)
  | errorInfo (error : String) (code : Option String)
  | emptyInfo
deriving DecidableEq, Repr

/-- A wire message (the numeric timestamp is elided). -/
structure WsMessage where
  type : WsType
  payload : WsPayload
deriving DecidableEq, Repr

/-- Hub registries: live connections and the order-id rooms
(orderId → subscribed connection ids). -/
structure HubState where
  connections : List Conn
  rooms : List (String × List String)
deriving DecidableEq, Repr

/-- Lookup of this.orderRooms.get(orderId). -/
def lookupRoom (st : HubState) (orderId : String) : Option (List String) :=
  (st.rooms.find? (fun p => p.1 == orderId)).map Prod.snd

/-- Lookup of this.connections.get(connectionId). -/
def findConn (st : HubState) (cid : String) : Option Conn :=
  st.connections.find? (fun c => c.id == cid)

/-- Embeds WebSocketManager.sendMessage: a no-op unless the connection is
registered with readyState OPEN; socket.send may throw and the exception
is caught and logged.  Returns true iff the message was actually
delivered; in every case the call returns normally. -/
def sendMessage (st : HubState) (cid : String) : Bool :=
  match findConn st cid with
  | Option.none => false
  | Option.some c => c.readyStateOpen && !c.sendFails

/-- Add a member to a room, creating the room on first subscribe. -/
def roomAdd (rooms : List (String × List String)) (oid cid : String) :
    List (String × List String) :=
  match rooms.find? (fun p => p.1 == oid) with
  | Option.none => rooms ++ [(oid, [cid])]
  | Option.some _ =>
    rooms.map fun p =>
      if p.1 == oid then (p.1, if p.2.contains cid then p.2 else p.2 ++ [cid])
      else p

/-- Remove a member from a room, pruning the room when it becomes
empty. -/
def roomRemove (rooms : List (String × List String)) (oid cid : String) :
    List (String × List String) :=
  (rooms.map fun p =>
      if p.1 == oid then (p.1, p.2.filter (fun x => !(x == cid))) else p).filter
    fun p => !(p.1 == oid) || !p.2.isEmpty

/-- The hub operations that can emit messages or mutate the
registries. -/
inductive HubOp
  /-- handleConnection: register and acknowledge a new connection. -/
  | connection (newId : String)
  /-- handleSubscribe (reached through handleMessage, which drops
  messages from unknown connections). -/
  | subscribe (cid orderId : String)
  /-- handleUnsubscribe. -/
  | unsubscribe (cid orderId : String)
  /-- handlePing. -/
  | ping (cid : String)
  /-- handleMessage with unparseable JSON: sendError. -/
  | badMessage (cid : String)
  /-- broadcastOrderUpdate. -/
  | publish (orderId : String) (status : OrderStatus) (message : Option String)
  /-- handleDisconnect: deregister and leave all rooms. -/
  | disconnect (cid : String)

/-- One hub operation: the new registries and the messages handed to
sendMessage, as (connection id, message) pairs. -/
def hubStep (st : HubState) (op : HubOp) : HubState × List (String × WsMessage) :=
  match op with
  | HubOp.connection newId =>
    ({ st with
        connections :=
          st.connections ++ [{ id := newId, readyStateOpen := true, sendFails := false }] },
     [(newId, { type := WsType.connected, payload := WsPayload.connectedInfo newId })])
  | HubOp.subscribe cid oid =>
    match findConn st cid with
    | Option.none => (st, [])
    | Option.some _ =>
      ({ st with rooms := roomAdd st.rooms oid cid },
       [(cid,
         { type := WsType.orderUpdate,
           payload :=
             WsPayload.orderUpdateInfo oid OrderStatus.PENDING
               (Option.some "Subscribed to order updates") })])
  | HubOp.unsubscribe cid oid =>
    match findConn st cid with
    | Option.none => (st, [])
    | Option.some _ => ({ st with rooms := roomRemove st.rooms oid cid }, [])
  | HubOp.ping cid =>
    match findConn st cid with
    | Option.none => (st, [])
    | Option.some _ =>
      (st, [(cid, { type := WsType.pong, payload := WsPayload.emptyInfo })])
  | HubOp.badMessage cid =>
    (st,
     [(cid,
       { type := WsType.error,
         payload := WsPayload.errorInfo "Invalid message format" Option.none })])
  | HubOp.publish oid s m =>
    match lookupRoom st oid with
    | Option.none => (st, [])
    | Option.some room =>
      if room.isEmpty then (st, [])
      else
        (st,
         room.map fun cid =>
           (cid,
            { type := WsType.orderUpdate, payload := WsPayload.orderUpdateInfo oid s m }))
  | HubOp.disconnect cid =>
    ({ connections := st.connections.filter (fun c => !(c.id == cid)),
       rooms :=
         (st.rooms.map fun p => (p.1, p.2.filter (fun x => !(x == cid)))).filter
           fun p => !p.2.isEmpty },
     [])

/-- The connection ids a broadcastOrderUpdate call actually delivers to:
the messages it hands to sendMessage, kept when sendMessage delivers. -/
def publishDeliveries (st : HubState) (oid : String) (s : OrderStatus)
    (m : Option String) : List String :=
  ((hubStep st (HubOp.publish oid s m)).2.map Prod.fst).filter fun cid =>
    sendMessage st cid

/-! ## Concrete sample inputs used by witnesses and counterexamples -/

/-- A Raydium-shaped sample quote. -/
def qRay : DexQuote :=
  { dex := DexType.RAYDIUM
    price := 100
    fee := 3 / 1000
    estimatedOutput := 1994 / 10
    latencyMs := 200 }

/-- A Meteora-shaped sample quote with the better estimated output. -/
def qMet : DexQuote :=
  { dex := DexType.METEORA
    price := 100
    fee := 1 / 500
    estimatedOutput := 1996 / 10
    latencyMs := 150 }

/-- A hub with one live, sendable connection subscribed to the wildcard
topic only. -/
def hubSt0 : HubState :=
  { connections := [{ id := "c1", readyStateOpen := true, sendFails := false }]
    rooms := [("*", ["c1"])] }

/-! ## Routing lemmas -/

theorem insertQuoteDesc_ne_nil (a : DexQuote) (s : List DexQuote) :
    insertQuoteDesc a s ≠ [] := by
  cases s with
  | nil => simp [insertQuoteDesc]
  | cons b l =>
    simp only [insertQuoteDesc]
    split <;> simp

theorem sortQuotesDesc_head (l : List DexQuote) :
    (sortQuotesDesc l).head? = firstMaxQuote l := by
  induction l with
  | nil => rfl
  | cons a l ih =>
    show (insertQuoteDesc a (sortQuotesDesc l)).head? = firstMaxQuote (a :: l)
    rw [firstMaxQuote, ← ih]
    cases h : sortQuotesDesc l with
    | nil => rfl
    | cons b t =>
      by_cases hc : b.estimatedOutput ≤ a.estimatedOutput <;>
        simp [insertQuoteDesc, hc]

theorem firstMaxQuote_isSome (a : DexQuote) (l : List DexQuote) :
    ∃ b, firstMaxQuote (a :: l) = Option.some b := by
  rw [firstMaxQuote]
  cases firstMaxQuote l with
  | none => exact ⟨a, rfl⟩
  | some b =>
    dsimp only
    split
    · exact ⟨a, rfl⟩
    · exact ⟨b, rfl⟩

theorem firstMaxQuote_mem (l : List DexQuote) (q : DexQuote)
    (h : firstMaxQuote l = Option.some q) : q ∈ l := by
  induction l generalizing q with
  | nil => exact absurd h (by simp [firstMaxQuote])
  | cons a l ih =>
    rw [firstMaxQuote] at h
    cases hl : firstMaxQuote l with
    | none =>
      rw [hl] at h
      injection h with h2
      subst h2
      exact List.mem_cons_self a l
    | some b =>
      rw [hl] at h
      dsimp only at h
      split at h
      · injection h with h2
        subst h2
        exact List.mem_cons_self a l
      · injection h with h2
        subst h2
        exact List.mem_cons_of_mem a (ih b hl)

theorem firstMaxQuote_ge (l : List DexQuote) (q : DexQuote)
    (h : firstMaxQuote l = Option.some q) :
    ∀ p ∈ l, p.estimatedOutput ≤ q.estimatedOutput := by
  induction l generalizing q with
  | nil => exact absurd h (by simp [firstMaxQuote])
  | cons a l ih =>
    intro p hp
    rw [firstMaxQuote] at h
    cases hl : firstMaxQuote l with
    | none =>
      rw [hl] at h
      injection h with h2
      subst h2
      cases l with
      | nil =>
        obtain rfl : p = a := by simpa using hp
        exact le_refl _
      | cons c t => exact absurd hl (by obtain ⟨b, hb⟩ := firstMaxQuote_isSome c t; simp [hb])
    | some b =>
      rw [hl] at h
      dsimp only at h
      split at h
      · rename_i hba
        injection h with h2
        subst h2
        rcases List.mem_cons.mp hp with rfl | hpl
        · exact le_refl _
        · exact le_trans (ih b hl p hpl) hba
      · rename_i hba
        injection h with h2
        subst h2
        rcases List.mem_cons.mp hp with rfl | hpl
        · exact le_of_lt (lt_of_not_le hba)
        · exact ih b hl p hpl

theorem sortQuotesDesc_head_of_cons (q : DexQuote) (qs : List DexQuote) :
    Option.some ((sortQuotesDesc (q :: qs)).headD q) = firstMaxQuote (q :: qs) := by
  have hne : sortQuotesDesc (q :: qs) ≠ [] := insertQuoteDesc_ne_nil q (sortQuotesDesc qs)
  obtain ⟨b, t, hbt⟩ := List.exists_cons_of_ne_nil hne
  have hh := sortQuotesDesc_head (q :: qs)
  rw [hbt] at hh ⊢
  simpa using hh

theorem findBestRoute_ok (outcomes : List (Option DexQuote))
    (orderId : Option String) (pf : Bool) (q : DexQuote) (qs : List DexQuote)
    (hq : outcomes.filterMap id = q :: qs) :
    findBestRoute outcomes orderId pf =
      (Except.ok
        { selectedDex := ((sortQuotesDesc (q :: qs)).headD q).dex,
          selectedQuote := (sortQuotesDesc (q :: qs)).headD q,
          allQuotes := sortQuotesDesc (q :: qs) },
       match orderId with
       | Option.none => []
       | Option.some oid =>
         persistQuoteLogs oid (q :: qs)
           ((sortQuotesDesc (q :: qs)).headD q).dex pf) := by
  simp only [findBestRoute, getAllQuotes, hq]

/-- Claim C1: for every non-empty list of successful quotes, findBestRoute
returns the quote with the maximal estimatedOutput, ties broken by the
original adapter order (the first quote attaining the maximum); when every
adapter fails to quote it fails with NoQuotesAvailable. -/
theorem C1_findBestRoute_first_max (outcomes : List (Option DexQuote))
    (orderId : Option String) (persistFails : Bool) :
    (outcomes.filterMap id = [] →
      (findBestRoute outcomes orderId persistFails).1 =
        Except.error RouterError.noQuotesAvailable) ∧
    (outcomes.filterMap id ≠ [] →
      ∃ r, (findBestRoute outcomes orderId persistFails).1 = Except.ok r ∧
        Option.some r.selectedQuote = firstMaxQuote (outcomes.filterMap id) ∧
        r.selectedQuote ∈ outcomes.filterMap id ∧
        ∀ p ∈ outcomes.filterMap id,
          p.estimatedOutput ≤ r.selectedQuote.estimatedOutput) := by
  cases hq : outcomes.filterMap id with
  | nil =>
    refine ⟨fun _ => ?_, fun hne => absurd rfl hne⟩
    simp [findBestRoute, getAllQuotes, hq]
  | cons q qs =>
    have hok := findBestRoute_ok outcomes orderId persistFails q qs hq
    refine ⟨fun heq => absurd heq (by simp), fun _ => ?_⟩
    refine ⟨{ selectedDex := ((sortQuotesDesc (q :: qs)).headD q).dex,
              selectedQuote := (sortQuotesDesc (q :: qs)).headD q,
              allQuotes := sortQuotesDesc (q :: qs) }, ?_, ?_, ?_, ?_⟩
    · rw [hok]
    · exact sortQuotesDesc_head_of_cons q qs
    · exact firstMaxQuote_mem _ _ (sortQuotesDesc_head_of_cons q qs).symm
    · exact firstMaxQuote_ge _ _ (sortQuotesDesc_head_of_cons q qs).symm

/-- Witness for C1 at two concrete quotes, Meteora offering the better
output, with quote persistence requested. -/
theorem C1_witness :
    ([Option.some qRay, Option.some qMet].filterMap id ≠ ([] : List DexQuote)) ∧
    (∃ r,
      (findBestRoute [Option.some qRay, Option.some qMet]
          (Option.some "order-1") false).1 = Except.ok r ∧
      Option.some r.selectedQuote =
        firstMaxQuote ([Option.some qRay, Option.some qMet].filterMap id) ∧
      r.selectedQuote ∈ [Option.some qRay, Option.some qMet].filterMap id ∧
      ∀ p ∈ [Option.some qRay, Option.some qMet].filterMap id,
        p.estimatedOutput ≤ r.selectedQuote.estimatedOutput) :=
  ⟨by decide,
   (C1_findBestRoute_first_max [Option.some qRay, Option.some qMet]
      (Option.some "order-1") false).2 (by decide)⟩

/-- Claim C6 counterexample: when every adapter fails, getAllQuotes
returns the empty quote list normally; the function itself does not fail
with NoQuotesAvailable (that error is raised by its caller
findBestRoute). -/
theorem C6_counterexample :
    getAllQuotes [Option.none, Option.none] = Except.ok [] ∧
    getAllQuotes [Option.none, Option.none] ≠
      Except.error RouterError.noQuotesAvailable := by
  exact ⟨rfl, by simp [getAllQuotes]⟩

/-- Claim C6 as amended: every adapter call is isolated — an adapter
failure removes only that venue's quote and never aborts the batch —
getAllQuotes never throws and returns exactly the successful quotes in
adapter order; when every adapter fails it returns the empty list and the
caller findBestRoute then fails with NoQuotesAvailable. -/
theorem C6_amended_isolation (outcomes : List (Option DexQuote)) :
    (∀ e : RouterError, getAllQuotes outcomes ≠ Except.error e) ∧
    getAllQuotes outcomes = Except.ok (outcomes.filterMap id) ∧
    (∀ pre post : List (Option DexQuote),
      outcomes = pre ++ Option.none :: post →
      getAllQuotes outcomes =
        Except.ok (pre.filterMap id ++ post.filterMap id)) ∧
    (outcomes.filterMap id = [] →
      (findBestRoute outcomes Option.none false).1 =
        Except.error RouterError.noQuotesAvailable) := by
  refine ⟨fun e => by simp [getAllQuotes], rfl, ?_, ?_⟩
  · intro pre post hsplit
    subst hsplit
    simp [getAllQuotes]
  · intro hq
    simp [findBestRoute, getAllQuotes, hq]

/-- Witness for C6 at the concrete all-adapters-fail input. -/
theorem C6_witness :
    getAllQuotes [Option.none, Option.none] =
      Except.ok (List.filterMap id [] ++
        List.filterMap id [(Option.none : Option DexQuote)]) ∧
    (findBestRoute [Option.none, Option.none] Option.none false).1 =
      Except.error RouterError.noQuotesAvailable :=
  ⟨(C6_amended_isolation [Option.none, Option.none]).2.2.1 [] [Option.none] rfl,
   (C6_amended_isolation [Option.none, Option.none]).2.2.2 (by decide)⟩

theorem filter_dex_singleton (l : List DexQuote) (b : DexQuote)
    (hp : l.Pairwise (fun x y => x.dex ≠ y.dex)) (hb : b ∈ l) :
    (l.filter (fun q => q.dex == b.dex)).length = 1 := by
  induction l with
  | nil => exact absurd hb (by simp)
  | cons a t ih =>
    obtain ⟨hat, hpt⟩ := List.pairwise_cons.mp hp
    rcases List.mem_cons.mp hb with rfl | hbt
    · have ht : t.filter (fun q => q.dex == b.dex) = [] := by
        rw [List.filter_eq_nil_iff]
        intro x hx
        simpa using (hat x hx).symm
      simp [List.filter_cons, ht]
    · have ha : ¬(a.dex == b.dex) = true := by
        simpa using hat b hbt
      simp [List.filter_cons, ha, ih hpt hbt]

/-- Claim C9: when routing an order (order id supplied), one DexQuoteLog
row is written per venue that returned a quote, carrying that venue's
quote data, with selectedForExecution true on exactly one row; when every
venue fails to quote, zero rows are written; and a failure of the
createMany write is swallowed — no rows are written and routing still
succeeds. -/
theorem C9_quote_logs (outcomes : List (Option DexQuote)) (oid : String)
    (hdex : (outcomes.filterMap id).Pairwise (fun x y => x.dex ≠ y.dex)) :
    (outcomes.filterMap id ≠ [] →
      ((findBestRoute outcomes (Option.some oid) false).2.map
          (fun r => (r.dex, r.price, r.fee, r.estimatedOutput, r.latencyMs)) =
        (outcomes.filterMap id).map
          (fun q => (q.dex, q.price, q.fee, q.estimatedOutput, q.latencyMs)) ∧
       (∀ r ∈ (findBestRoute outcomes (Option.some oid) false).2, r.orderId = oid) ∧
       ((findBestRoute outcomes (Option.some oid) false).2.filter
          (fun r => r.selectedForExecution)).length = 1)) ∧
    (outcomes.filterMap id = [] →
      (findBestRoute outcomes (Option.some oid) false).2 = []) ∧
    ((findBestRoute outcomes (Option.some oid) true).2 = [] ∧
     (outcomes.filterMap id ≠ [] →
       ∃ r, (findBestRoute outcomes (Option.some oid) true).1 = Except.ok r)) := by
  cases hq : outcomes.filterMap id with
  | nil =>
    refine ⟨fun hne => absurd rfl hne, fun _ => ?_, ?_, fun hne => absurd rfl hne⟩
    · simp [findBestRoute, getAllQuotes, hq]
    · simp [findBestRoute, getAllQuotes, hq]
  | cons q qs =>
    have hsel : (sortQuotesDesc (q :: qs)).headD q ∈ q :: qs :=
      firstMaxQuote_mem _ _ (sortQuotesDesc_head_of_cons q qs).symm
    have hokf := findBestRoute_ok outcomes (Option.some oid) false q qs hq
    have hokt := findBestRoute_ok outcomes (Option.some oid) true q qs hq
    have hlogs : (findBestRoute outcomes (Option.some oid) false).2 =
        (q :: qs).map fun p =>
          ({ orderId := oid
             dex := p.dex
             price := p.price
             fee := p.fee
             estimatedOutput := p.estimatedOutput
             latencyMs := p.latencyMs
             selectedForExecution :=
               p.dex == ((sortQuotesDesc (q :: qs)).headD q).dex } :
            DexQuoteLogRow) := by
      rw [hokf]
      simp [persistQuoteLogs]
    refine ⟨fun _ => ⟨?_, ?_, ?_⟩, fun heq => absurd heq (by simp), ?_, fun _ => ?_⟩
    · rw [hlogs, List.map_map]
      rfl
    · intro r hr
      rw [hlogs] at hr
      obtain ⟨p, _, rfl⟩ := List.mem_map.mp hr
      rfl
    · rw [hq] at hdex
      rw [hlogs, List.filter_map, List.length_map]
      exact filter_dex_singleton (q :: qs) _ hdex hsel
    · rw [hokt]
      simp [persistQuoteLogs]
    · exact ⟨_, by rw [hokt]⟩

/-- Witness for C9 at two concrete quotes from distinct venues. -/
theorem C9_witness :
    ([Option.some qRay, Option.some qMet].filterMap id ≠ ([] : List DexQuote)) ∧
    ((findBestRoute [Option.some qRay, Option.some qMet]
          (Option.some "order-1") false).2.map
        (fun r => (r.dex, r.price, r.fee, r.estimatedOutput, r.latencyMs)) =
      ([Option.some qRay, Option.some qMet].filterMap id).map
        (fun q => (q.dex, q.price, q.fee, q.estimatedOutput, q.latencyMs)) ∧
      (∀ r ∈ (findBestRoute [Option.some qRay, Option.some qMet]
          (Option.some "order-1") false).2, r.orderId = "order-1") ∧
      ((findBestRoute [Option.some qRay, Option.some qMet]
          (Option.some "order-1") false).2.filter
        (fun r => r.selectedForExecution)).length = 1) :=
  ⟨by decide,
   (C9_quote_logs [Option.some qRay, Option.some qMet] "order-1"
      (by decide)).1 (by decide)⟩

/-- Claim C8: enqueue is idempotent per order id — the job id is derived
deterministically from the order id, and adding it again while a job with
that id exists does not create a duplicate, so the order id never has more
than one job in flight. -/
theorem C8_enqueue_idempotent (jobs : List QueueJob) (oid : String) :
    enqueueOrder (enqueueOrder jobs oid) oid = enqueueOrder jobs oid ∧
    ((jobsOf jobs oid).length ≤ 1 →
      (jobsOf (enqueueOrder jobs oid) oid).length ≤ 1) := by
  by_cases h : jobs.any (fun j => j.jobId == "order-" ++ oid)
  · have he : enqueueOrder jobs oid = jobs := by
      simp [enqueueOrder, queueAdd, h]
    rw [he]
    exact ⟨he, fun hle => hle⟩
  · have he : enqueueOrder jobs oid =
        jobs ++ [{ jobId := "order-" ++ oid, orderId := oid }] := by
      simp [enqueueOrder, queueAdd, h]
    have hnil : jobs.filter (fun j => j.jobId == "order-" ++ oid) = [] := by
      rw [List.filter_eq_nil_iff]
      intro j hj
      exact (List.any_eq_false.mp (Bool.eq_false_iff.mpr h)) j hj
    constructor
    · rw [he]
      simp [enqueueOrder, queueAdd]
    · intro _
      rw [he]
      simp [jobsOf, List.filter_append, hnil]

/-- Witness for C8 starting from the empty queue. -/
theorem C8_witness :
    (jobsOf [] "order-1").length ≤ 1 ∧
    (jobsOf (enqueueOrder [] "order-1") "order-1").length ≤ 1 :=
  ⟨by decide, (C8_enqueue_idempotent [] "order-1").2 (by decide)⟩

/-! ## Worker state machine lemmas -/

theorem runStage_history (k : Nat) (db : DbState) :
    (runStage k db).history = db.history ++ attemptDelta k := by
  simp only [runStage, attemptDelta, updateStatus]
  split_ifs <;> first | (simp; done) | (exfalso; omega)

theorem runStage_status (k : Nat) (db : DbState) :
    (runStage k db).status =
      (if 6 ≤ k then OrderStatus.CONFIRMED else stageReached k db) := by
  simp only [runStage, stageReached, updateStatus]
  split_ifs <;> rfl

theorem runStage_fields (k : Nat) (db : DbState) :
    (runStage k db).retryCount = db.retryCount ∧
    (runStage k db).failureReason = db.failureReason ∧
    (runStage k db).executions = db.executions := by
  simp only [runStage, updateStatus]
  split_ifs <;> exact ⟨rfl, rfl, rfl⟩

theorem processOrder_success_case (k am att : Nat) (err : String)
    (db : DbState) (hk : 6 ≤ k) :
    processOrder k am att err db =
      { db := runStage k db, success := true, broadcasts := [] } := by
  simp [processOrder, hk]

theorem processOrder_throw_case (k am att : Nat) (err : String)
    (db : DbState) (hk : ¬ 6 ≤ k) :
    processOrder k am att err db =
      { db :=
          if am + 1 ≥ (if att = 0 then 1 else att) then
            markAsFailed (incrementRetryCount (runStage k db)) err
          else incrementRetryCount (runStage k db)
        success := false
        broadcasts := [] } := by
  simp [processOrder, hk]

theorem processOrder_history (k am att : Nat) (err : String) (db : DbState) :
    (processOrder k am att err db).db.history = db.history ++ attemptDelta k := by
  by_cases hk : 6 ≤ k
  · rw [processOrder_success_case k am att err db hk]
    exact runStage_history k db
  · rw [processOrder_throw_case k am att err db hk]
    dsimp only
    split_ifs <;>
      simp [markAsFailed, incrementRetryCount, runStage_history]

theorem processOrder_executions (k am att : Nat) (err : String) (db : DbState) :
    (processOrder k am att err db).db.executions = db.executions := by
  by_cases hk : 6 ≤ k
  · rw [processOrder_success_case k am att err db hk]
    exact (runStage_fields k db).2.2
  · rw [processOrder_throw_case k am att err db hk]
    dsimp only
    split_ifs <;>
      simp [markAsFailed, incrementRetryCount, (runStage_fields k db).2.2]

theorem historyChunks_append (h t : List OrderStatus)
    (hh : HistoryChunks h) (ht : HistoryChunks t) : HistoryChunks (h ++ t) := by
  induction hh with
  | nil => simpa using ht
  | attempt b t2 hb _ ih =>
    rw [List.append_assoc]
    exact HistoryChunks.attempt b _ hb ih
  | restart t2 _ ih => exact HistoryChunks.restart _ ih

theorem attemptDelta_chunks (k : Nat) : HistoryChunks (attemptDelta k) := by
  have hone : ∀ b : List OrderStatus, attemptBlock b = true → HistoryChunks b := by
    intro b hb
    have hx := HistoryChunks.attempt b [] hb HistoryChunks.nil
    simpa using hx
  unfold attemptDelta
  split_ifs
  · exact hone _ (by decide)
  · exact hone _ (by decide)
  · exact hone _ (by decide)
  · exact hone _ (by decide)
  · exact HistoryChunks.nil

theorem attemptDelta_no_failed (k : Nat) :
    OrderStatus.FAILED ∉ attemptDelta k := by
  unfold attemptDelta
  split_ifs <;> decide

theorem step_inv (db : DbState) (e : Ev)
    (hh : HistoryChunks db.history) (hf : OrderStatus.FAILED ∉ db.history) :
    HistoryChunks (step db e).history ∧
      OrderStatus.FAILED ∉ (step db e).history := by
  cases e with
  | attempt k am att err =>
    show HistoryChunks (processOrder k am att err db).db.history ∧
      OrderStatus.FAILED ∉ (processOrder k am att err db).db.history
    rw [processOrder_history]
    refine ⟨historyChunks_append _ _ hh (attemptDelta_chunks k), ?_⟩
    intro hmem
    rcases List.mem_append.mp hmem with h1 | h2
    · exact hf h1
    · exact attemptDelta_no_failed k h2
  | cancel removed =>
    simp only [step]
    split
    · exact ⟨hh, hf⟩
    · exact ⟨hh, hf⟩
  | retryManual =>
    simp only [step]
    split
    · show HistoryChunks (db.history ++ [OrderStatus.PENDING]) ∧ _
      refine ⟨historyChunks_append _ _ hh
        (HistoryChunks.restart [] HistoryChunks.nil), ?_⟩
      intro hmem
      rcases List.mem_append.mp hmem with h1 | h2
      · exact hf h1
      · simp at h2
    · exact ⟨hh, hf⟩

theorem run_inv (evs : List Ev) : ∀ db : DbState,
    HistoryChunks db.history → OrderStatus.FAILED ∉ db.history →
    HistoryChunks (evs.foldl step db).history ∧
      OrderStatus.FAILED ∉ (evs.foldl step db).history := by
  induction evs with
  | nil => exact fun db h1 h2 => ⟨h1, h2⟩
  | cons e t ih =>
    intro db h1 h2
    obtain ⟨h1a, h2a⟩ := step_inv db e h1 h2
    exact ih _ h1a h2a

theorem step_executions (db : DbState) (e : Ev) :
    (step db e).executions = db.executions := by
  cases e with
  | attempt k am att err => exact processOrder_executions k am att err db
  | cancel removed =>
    simp only [step]
    split <;> rfl
  | retryManual =>
    simp only [step]
    split <;> rfl

theorem run_executions (evs : List Ev) :
    ∀ db : DbState, (evs.foldl step db).executions = db.executions := by
  induction evs with
  | nil => exact fun db => rfl
  | cons e t ih =>
    intro db
    rw [List.foldl_cons, ih, step_executions]

/-- Claim C2 counterexample: an order whose only attempt fails during
executeSwap under an attempt budget of 1 (history ROUTING, BUILDING,
SUBMITTED; markAsFailed writes no history row) and is then retried
manually gets the history ROUTING, BUILDING, SUBMITTED, PENDING — the
adjacent pair SUBMITTED, PENDING is not an edge of the claimed state
graph even with the FAILED → PENDING restart edge allowed. -/
theorem C2_counterexample :
    validClaimPath
      (run [Ev.attempt 4 0 1 "swap failed", Ev.retryManual]).history = false := by
  decide

/-- Claim C2 as amended: every reachable OrderStatusHistory is a
concatenation of blocks, each block either a nonempty forward prefix of
ROUTING, BUILDING, SUBMITTED, CONFIRMED (one worker attempt, which always
restarts at ROUTING) or a single PENDING row (manual restart); FAILED
never appears in the history because markAsFailed appends no history row,
and creation appends no PENDING row. -/
theorem C2_amended_history_blocks (evs : List Ev) :
    HistoryChunks (run evs).history ∧
      OrderStatus.FAILED ∉ (run evs).history :=
  run_inv evs createdOrder HistoryChunks.nil (by simp [createdOrder])

/-- Claim C3: the worker transitions orders to CONFIRMED without ever
creating an OrderExecution row — ExecutionRepository.create has no call
site — so a successfully processed order is CONFIRMED with zero
OrderExecution rows, and no reachable state has any. -/
theorem C3_confirmed_without_execution_row :
    ((run [Ev.attempt 6 0 3 "unused"]).status = OrderStatus.CONFIRMED ∧
     (run [Ev.attempt 6 0 3 "unused"]).executions = 0) ∧
    ∀ evs : List Ev, (run evs).executions = 0 := by
  refine ⟨by decide, fun evs => ?_⟩
  exact run_executions evs createdOrder

/-- Claim C4 counterexample: a successful markAsFailed sets the order row
to FAILED but appends no OrderStatusHistory row, so the FAILED transition
is not persisted as an order-row update plus a history append. -/
theorem C4_counterexample :
    markAsFailedTx false createdOrder "routing failed" =
      Except.ok (markAsFailed createdOrder "routing failed") ∧
    (markAsFailed createdOrder "routing failed").status = OrderStatus.FAILED ∧
    (markAsFailed createdOrder "routing failed").history ≠
      createdOrder.history ++ [OrderStatus.FAILED] := by
  exact ⟨rfl, rfl, by decide⟩

/-- Claim C4 as amended: transitions persisted through
OrderRepository.updateStatus are one atomic unit — the order-row update
and the matching history append happen together, or on a store failure
the transaction throws and neither happens; the FAILED transition through
markAsFailed updates the order row's status and failureReason only and
never appends a history row. -/
theorem C4_amended_transactional (fails : Bool) (db : DbState)
    (s : OrderStatus) (reason : String) :
    (fails = false →
      updateStatusTx fails db s = Except.ok (updateStatus db s) ∧
      (updateStatus db s).status = s ∧
      (updateStatus db s).history = db.history ++ [s]) ∧
    (fails = true →
      updateStatusTx fails db s = Except.error PersistError.persistenceFailure ∧
      markAsFailedTx fails db reason =
        Except.error PersistError.persistenceFailure) ∧
    (fails = false →
      markAsFailedTx fails db reason = Except.ok (markAsFailed db reason) ∧
      (markAsFailed db reason).status = OrderStatus.FAILED ∧
      (markAsFailed db reason).failureReason = Option.some reason ∧
      (markAsFailed db reason).history = db.history) := by
  refine ⟨fun hf => ?_, fun hf => ?_, fun hf => ?_⟩ <;> subst hf
  · exact ⟨rfl, rfl, rfl⟩
  · exact ⟨rfl, rfl⟩
  · exact ⟨rfl, rfl, rfl, rfl⟩

/-- Witness for C4 on a concrete successful ROUTING transition. -/
theorem C4_witness :
    (false = false) ∧
    (updateStatusTx false createdOrder OrderStatus.ROUTING =
       Except.ok (updateStatus createdOrder OrderStatus.ROUTING) ∧
     (updateStatus createdOrder OrderStatus.ROUTING).status =
       OrderStatus.ROUTING ∧
     (updateStatus createdOrder OrderStatus.ROUTING).history =
       createdOrder.history ++ [OrderStatus.ROUTING]) :=
  ⟨rfl,
   (C4_amended_transactional false createdOrder OrderStatus.ROUTING "r").1 rfl⟩

/-- Claim C5 counterexample: on the last attempt of the budget the worker
marks the order FAILED but emits no broadcast at all — the terminal
update is never handed to the hub, contradicting the broadcast clause of
the claim. -/
theorem C5_counterexample :
    (processOrder 4 0 1 "swap failed" createdOrder).db.status =
      OrderStatus.FAILED ∧
    (processOrder 4 0 1 "swap failed" createdOrder).broadcasts = [] := by
  decide

/-- Claim C5 as amended: for every invocation whose processing step
throws, the worker increments retryCount; when the attempt just made
exhausts the budget `job.opts.attempts || 1` it marks the order FAILED
with the captured error text (without broadcasting anything — the worker
never calls the hub); otherwise the status stays at the non-terminal
stage reached, with no revert and failureReason untouched. -/
theorem C5_amended_retry_handling (k am att : Nat) (err : String)
    (db : DbState) (hk : k < 6) :
    (processOrder k am att err db).success = false ∧
    (processOrder k am att err db).db.retryCount = db.retryCount + 1 ∧
    (processOrder k am att err db).broadcasts = [] ∧
    (am + 1 ≥ (if att = 0 then 1 else att) →
      (processOrder k am att err db).db.status = OrderStatus.FAILED ∧
      (processOrder k am att err db).db.failureReason = Option.some err) ∧
    (am + 1 < (if att = 0 then 1 else att) →
      (processOrder k am att err db).db.status = stageReached k db ∧
      (processOrder k am att err db).db.failureReason = db.failureReason) := by
  have hk6 : ¬ 6 ≤ k := by omega
  rw [processOrder_throw_case k am att err db hk6]
  obtain ⟨hrc, hfr, hex⟩ := runStage_fields k db
  have hst := runStage_status k db
  rw [if_neg hk6] at hst
  by_cases hg : am + 1 ≥ (if att = 0 then 1 else att)
  · rw [if_pos hg]
    refine ⟨rfl, ?_, rfl, fun _ => ⟨rfl, rfl⟩, fun hlt => absurd hg (by omega)⟩
    simp [markAsFailed, incrementRetryCount, hrc]
  · rw [if_neg hg]
    refine ⟨rfl, ?_, rfl, fun hge => absurd hge hg, fun _ => ⟨?_, ?_⟩⟩
    · simp [incrementRetryCount, hrc]
    · simp [incrementRetryCount, hst]
    · simp [incrementRetryCount, hfr]

/-- Witness for C5: a throw during executeSwap on the first of three
attempts. -/
theorem C5_witness :
    (4 : Nat) < 6 ∧
    ((processOrder 4 0 3 "swap failed" createdOrder).success = false ∧
     (processOrder 4 0 3 "swap failed" createdOrder).db.retryCount =
       createdOrder.retryCount + 1 ∧
     (processOrder 4 0 3 "swap failed" createdOrder).broadcasts = [] ∧
     (0 + 1 ≥ (if (3 : Nat) = 0 then 1 else 3) →
       (processOrder 4 0 3 "swap failed" createdOrder).db.status =
         OrderStatus.FAILED ∧
       (processOrder 4 0 3 "swap failed" createdOrder).db.failureReason =
         Option.some "swap failed") ∧
     (0 + 1 < (if (3 : Nat) = 0 then 1 else 3) →
       (processOrder 4 0 3 "swap failed" createdOrder).db.status =
         stageReached 4 createdOrder ∧
       (processOrder 4 0 3 "swap failed" createdOrder).db.failureReason =
         createdOrder.failureReason)) :=
  ⟨by decide, C5_amended_retry_handling 4 0 3 "swap failed" createdOrder (by decide)⟩

/-! ## Broadcast hub theorems -/

/-- Claim C7: a connection subscribed only to the wildcard topic, live and
able to receive, gets nothing when an update for a concrete order id is
published — broadcastOrderUpdate looks up only the room of that exact
order id, so the wildcard room is never fanned out to. -/
theorem C7_wildcard_not_delivered :
    (lookupRoom hubSt0 "*").getD [] = ["c1"] ∧
    sendMessage hubSt0 "c1" = true ∧
    publishDeliveries hubSt0 "order-1" OrderStatus.ROUTING Option.none = [] := by
  decide

/-- Claim C10: on a live connection, the subscription acknowledgement is
one message of type order-update whose payload always carries status
PENDING and the text Subscribed to order updates, independent of any
persisted order state; and no hub operation ever emits a message of the
dedicated subscribed type. -/
theorem C10_subscribe_ack (st : HubState) (cid oid : String)
    (hlive : findConn st cid ≠ Option.none) :
    (hubStep st (HubOp.subscribe cid oid)).2 =
      [(cid,
        { type := WsType.orderUpdate,
          payload := WsPayload.orderUpdateInfo oid OrderStatus.PENDING
            (Option.some "Subscribed to order updates") })] ∧
    (∀ (op : HubOp) (e : String × WsMessage), e ∈ (hubStep st op).2 →
      e.2.type ≠ WsType.subscribed) := by
  constructor
  · cases h : findConn st cid with
    | none => exact absurd h hlive
    | some c => simp [hubStep, h]
  · intro op e he
    cases op with
    | connection nid =>
      simp only [hubStep, List.mem_singleton] at he
      subst he
      simp
    | subscribe c o =>
      simp only [hubStep] at he
      cases h : findConn st c with
      | none => rw [h] at he; simp at he
      | some cc =>
        rw [h] at he
        simp only [List.mem_singleton] at he
        subst he
        simp
    | unsubscribe c o =>
      simp only [hubStep] at he
      cases h : findConn st c with
      | none => rw [h] at he; simp at he
      | some cc => rw [h] at he; simp at he
    | ping c =>
      simp only [hubStep] at he
      cases h : findConn st c with
      | none => rw [h] at he; simp at he
      | some cc =>
        rw [h] at he
        simp only [List.mem_singleton] at he
        subst he
        simp
    | badMessage c =>
      simp only [hubStep, List.mem_singleton] at he
      subst he
      simp
    | publish o s m =>
      simp only [hubStep] at he
      cases h : lookupRoom st o with
      | none => rw [h] at he; simp at he
      | some room =>
        rw [h] at he
        dsimp only at he
        by_cases hr : room.isEmpty
        · rw [if_pos hr] at he
          simp at he
        · rw [if_neg hr] at he
          simp only [List.mem_map] at he
          obtain ⟨c2, _, rfl⟩ := he
          simp
    | disconnect c =>
      simp only [hubStep] at he
      simp at he

/-- Witness for C10 on the concrete hub with live connection c1. -/
theorem C10_witness :
    (findConn hubSt0 "c1" ≠ Option.none) ∧
    ((hubStep hubSt0 (HubOp.subscribe "c1" "order-7")).2 =
       [("c1",
         { type := WsType.orderUpdate,
           payload := WsPayload.orderUpdateInfo "order-7" OrderStatus.PENDING
             (Option.some "Subscribed to order updates") })] ∧
     (∀ (op : HubOp) (e : String × WsMessage), e ∈ (hubStep hubSt0 op).2 →
       e.2.type ≠ WsType.subscribed)) :=
  ⟨by decide, C10_subscribe_ack hubSt0 "c1" "order-7" (by decide)⟩

end OrderExec
